import Mathlib

set_option maxHeartbeats 1000000

namespace SPA

/-! Shallow embedding of the account state machine, transaction metering
engine, maintenance scanner and reporting aggregator of the
sustainable-personal-accounts repository.

Python dictionaries are modelled as insertion-ordered association lists
(`List (String × α)`): assignment replaces the value in place when the key
exists and appends otherwise, which is exactly CPython's dict semantics. -/

/-- Lookup in the dict model: value of the first entry carrying the key. -/
def assocGet {α : Type} : List (String × α) → String → Option α
| [], _ => none
| p :: ps, k => if p.1 = k then some p.2 else assocGet ps k

/-- Key-membership test of the dict model (`k in d.keys()`). -/
def hasKey {α : Type} : List (String × α) → String → Bool
| [], _ => false
| p :: ps, k => if p.1 = k then true else hasKey ps k

/-- Dict assignment `d[k] = v`: replace in place when the key is present,
append otherwise (CPython insertion-order semantics). -/
def assocSet {α : Type} (m : List (String × α)) (k : String) (v : α) :
    List (String × α) :=
  if hasKey m k then m.map (fun p => if p.1 = k then (k, v) else p)
  else m ++ [(k, v)]

end SPA

namespace SPA.Account

/-! Embedding of src/code/account.py. -/

/-- The `State` enumeration: value is given to tag `account:state`. -/
inductive State
| VANILLA
| ASSIGNED
| RELEASED
| EXPIRED
deriving DecidableEq, Repr

/-- The string value of each enumeration member. -/
def State.value : State → String
| .VANILLA => "vanilla"
| .ASSIGNED => "assigned"
| .RELEASED => "released"
| .EXPIRED => "expired"

/-- Iteration order of the `State` enumeration, as declared. -/
def State.all : List State := [.VANILLA, .ASSIGNED, .RELEASED, .EXPIRED]

/-! A small regular-expression engine (Brzozowski derivatives) used to embed
`re.fullmatch` against the compiled pattern `VALID_EMAIL`. -/

inductive Re
| emp
| eps
| cls (p : Char → Bool)
| cat (a b : Re)
| alt (a b : Re)
| star (a : Re)

def Re.nullable : Re → Bool
| .emp => false
| .eps => true
| .cls _ => false
| .cat a b => a.nullable && b.nullable
| .alt a b => a.nullable || b.nullable
| .star _ => true

def Re.deriv : Re → Char → Re
| .emp, _ => .emp
| .eps, _ => .emp
| .cls p, c => if p c then .eps else .emp
| .cat a b, c =>
  if a.nullable then .alt (.cat (a.deriv c) b) (b.deriv c)
  else .cat (a.deriv c) b
| .alt a b, c => .alt (a.deriv c) (b.deriv c)
| .star a, c => .cat (a.deriv c) (.star a)

def Re.matchList : Re → List Char → Bool
| r, [] => r.nullable
| r, c :: cs => (r.deriv c).matchList cs

/-- Python re.fullmatch of a pattern against a text, as a Boolean. -/
def Re.fullmatch (r : Re) (s : String) : Bool := r.matchList s.data

/-- One or more repetitions of a pattern (the + operator). -/
def Re.plus (r : Re) : Re := .cat r (.star r)

/-- Character class `[A-Za-z0-9]`. -/
def isAlnumChar (c : Char) : Bool :=
  (decide ('A' ≤ c) && decide (c ≤ 'Z')) ||
  (decide ('a' ≤ c) && decide (c ≤ 'z')) ||
  (decide ('0' ≤ c) && decide (c ≤ '9'))

/-- Character class `[.-_]`: the dash sits between two characters, so this is
the code-point range from full stop to low line. -/
def isDotToUnderscore (c : Char) : Bool :=
  decide ('.' ≤ c) && decide (c ≤ '_')

/-- Character class `[A-Za-z0-9-]`. -/
def isAlnumOrDash (c : Char) : Bool := isAlnumChar c || decide (c = '-')

/-- Character class `[A-Z|a-z]`: upper-case letters, the vertical bar (a
literal inside the class), and lower-case letters. -/
def isTldChar (c : Char) : Bool :=
  (decide ('A' ≤ c) && decide (c ≤ 'Z')) || decide (c = '|') ||
  (decide ('a' ≤ c) && decide (c ≤ 'z'))

/-- The compiled pattern `VALID_EMAIL`:
`([A-Za-z0-9]+[.-_])*[A-Za-z0-9]+@[A-Za-z0-9-]+(\.[A-Z|a-z]\x7b2,\x7d)+`. -/
def VALID_EMAIL : Re :=
  .cat (.star (.cat (Re.plus (.cls isAlnumChar)) (.cls isDotToUnderscore)))
    (.cat (Re.plus (.cls isAlnumChar))
      (.cat (.cls (fun c => decide (c = '@')))
        (.cat (Re.plus (.cls isAlnumOrDash))
          (Re.plus (.cat (.cls (fun c => decide (c = '.')))
            (.cat (.cls isTldChar) (Re.plus (.cls isTldChar))))))))

/-- Embeds `Account.validate_owner`: full match of the owner text against
`VALID_EMAIL`. -/
def validate_owner (text : String) : Bool := VALID_EMAIL.fullmatch text

/-- Embeds `Account.validate_state`: membership of the text in the list of the
enumeration's values. -/
def validate_state (text : String) : Bool :=
  (State.all.map State.value).any (fun v => text = v)

/-- Tag listing of one account, as merged by `Account.list_tags`: the chunks
returned by the paginated provider call are iterated in order and each
Key/Value item is written into one dict. -/
def list_tags (chunks : List (List (String × String))) : List (String × String) :=
  (chunks.flatten).foldl (fun tags item => SPA.assocSet tags item.1 item.2) []

/-- Embeds `Account.validate_tags` over an already-listed tag mapping: four checks in
fixed order, raising `ValueError` (here: `Except.error` with the message) on
the first violation. -/
def validate_tags (account : String) (tags : List (String × String)) :
    Except String Unit :=
  match SPA.assocGet tags "account:owner" with
  | none => .error ("Missing tag account:owner on account " ++ account)
  | some owner =>
    if validate_owner owner = false then
      .error ("Invalid value for tag account:owner on account " ++ account)
    else
      match SPA.assocGet tags "account:state" with
      | none => .error ("Missing tag account:state on account " ++ account)
      | some st =>
        if validate_state st = false then
          .error ("Invalid value for tag account:state on account " ++ account)
        else .ok ()

/-- The argument passed to `Account.move` in the `state` position: either a
genuine member of the `State` enumeration, or any other Python object — for
example a raw value or a namespace carrying a `value` attribute — which fails
the `isinstance(state, State)` check whatever it carries. -/
inductive PyStateArg
| member (s : State)
| raw (v : String)

/-- One call to `tag_resource`, the only tag mutation `move` can perform. -/
structure TagMutation where
  resourceId : String
  key : String
  value : String
deriving DecidableEq, Repr

/-- Embeds `Account.move`: the `isinstance` check raises `ValueError` for a non-member
target; otherwise the mutation is performed exactly when the `DRY_RUN`
environment entry equals "FALSE", and only logged otherwise. The returned
list holds the tag-mutation calls actually issued. -/
def move (dryRun : Option String) (account : String) (state : PyStateArg) :
    Except String Unit × List TagMutation :=
  match state with
  | .raw v => (.error ("Unexpected state type " ++ v), [])
  | .member s =>
    if dryRun = some "FALSE" then
      (.ok (), [⟨account, "account:state", s.value⟩])
    else
      (.ok (), [])

end SPA.Account

namespace SPA.Meter

/-! Embedding of src/code/on_account_event_then_meter_handler.py.

The repository's `datastore` and `events` modules are imported by this
handler but are not part of the handler's own file; their contracts are
modelled from the spec (see `Store.assign`, `Store.retrieve`, `SpaEvent`).
The wall clock `time()` and the random `uuid4()` are nondeterministic
inputs and appear as explicit parameters. -/

/-- An open transaction as persisted by the starting handlers:
begin = time(), identifier = str(uuid4()). -/
structure Txn where
  begin : Int
  identifier : String
deriving DecidableEq, Repr

/-- Modelled from the spec: the Transaction Ledger (`datastore` module,
not under src/) is a key-value store; `assign(key, value)` is an upsert and
`assign(key, None)` deletes; `retrieve(key)` returns the value or absent. -/
def Store : Type := String → Option Txn

/-- Modelled from the spec: ledger upsert; a `none` value deletes the key. -/
def Store.assign (st : Store) (k : String) (v : Option Txn) : Store :=
  fun key => if key = k then v else st key

/-- Modelled from the spec: ledger read, absent when never written,
overwritten or deleted. -/
def Store.retrieve (st : Store) (k : String) : Option Txn := st k

/-- The payload of an emitted completion event: the retrieved transaction
with `end` and `duration` added. -/
structure ClosedTxn where
  begin : Int
  identifier : String
  end_ : Int
  duration : Int
deriving DecidableEq, Repr

/-- Modelled from the spec: the outbound event envelope passed to
`Events.emit_spa_event` (the `events` module is not under src/):
label plus payload. -/
structure SpaEvent where
  label : String
  payload : ClosedTxn
deriving DecidableEq, Repr

/-- The ledger key composed as the literal "OnBoarding " followed by the
account identifier. -/
def onboardingKey (account : String) : String := "OnBoarding " ++ account

/-- The ledger key composed as the literal "Maintenance " followed by the
account identifier. -/
def maintenanceKey (account : String) : String := "Maintenance " ++ account

/-- Embeds `handle_created_event`: write a fresh transaction under the OnBoarding
key for the account. -/
def handle_created_event (now : Int) (ident : String) (store : Store)
    (account : String) : Store :=
  store.assign (onboardingKey account) (some ⟨now, ident⟩)

/-- Embeds `handle_expired_event`: write a fresh transaction under the Maintenance
key for the account. -/
def handle_expired_event (now : Int) (ident : String) (store : Store)
    (account : String) : Store :=
  store.assign (maintenanceKey account) (some ⟨now, ident⟩)

/-- Embeds `update_maintenance_transaction`: retrieve the Maintenance record; when
present, delete it, add `end = time()` and `duration = end - begin`, and emit
a `SuccessfulMaintenanceEvent`; when absent do nothing. -/
def update_maintenance_transaction (now : Int) (store : Store)
    (account : String) : Store × List SpaEvent :=
  match store.retrieve (maintenanceKey account) with
  | none => (store, [])
  | some txn =>
    (store.assign (maintenanceKey account) none,
     [⟨"SuccessfulMaintenanceEvent", ⟨txn.begin, txn.identifier, now, now - txn.begin⟩⟩])

/-- Embeds `update_onboarding_transaction`: retrieve the OnBoarding record; when
present, delete it, add `end = time()` and `duration = end - begin`, and emit
a `SuccessfulOnBoardingEvent`; when absent do nothing. -/
def update_onboarding_transaction (now : Int) (store : Store)
    (account : String) : Store × List SpaEvent :=
  match store.retrieve (onboardingKey account) with
  | none => (store, [])
  | some txn =>
    (store.assign (onboardingKey account) none,
     [⟨"SuccessfulOnBoardingEvent", ⟨txn.begin, txn.identifier, now, now - txn.begin⟩⟩])

/-- Embeds `handle_released_event`: close the Maintenance transaction, then the
OnBoarding transaction. Each closing call reads its own clock, hence the two
time parameters. Returns the updated ledger and the emitted events in order. -/
def handle_released_event (nowM nowO : Int) (store : Store)
    (account : String) : Store × List SpaEvent :=
  let rm := update_maintenance_transaction nowM store account
  let ro := update_onboarding_transaction nowO rm.1 account
  (ro.1, rm.2 ++ ro.2)

end SPA.Meter

namespace SPA.Scanner

/-! Embedding of src/code/move_expired_accounts_handler.py.

The scanner loops over the organizational units, lists the accounts of each
unit, describes each account, and decides whether to call `Account.move` with
`State.EXPIRED`. The guard on line 42 compares the string tag value returned
by `item.tags.get('account:state')` with the enumeration member
`State.RELEASED` using Python `!=`; Python equality across `str` (or `None`)
and an `Enum` member is modelled by `PyObj.eq`. -/

open SPA.Account

/-- A Python value that can appear in the comparison on the scanner's guard:
`None` (key absent), a string tag value, or a `State` enumeration member. -/
inductive PyObj
| pyNone
| pyStr (s : String)
| pyState (s : State)

/-- Python `==` restricted to the values above: `str.__eq__` with a non-string
returns `NotImplemented`, and `Enum` members compare by identity, so any
cross-type comparison yields `False`. -/
def PyObj.eq : PyObj → PyObj → Bool
| .pyNone, .pyNone => true
| .pyStr a, .pyStr b => decide (a = b)
| .pyState a, .pyState b => decide (a = b)
| _, _ => false

/-- The result of `Account.describe` as the scanner uses it: identifier,
active flag, and the tag mapping (string values, from `Account.list_tags`). -/
structure AccountView where
  id : String
  is_active : Bool
  tags : List (String × String)

/-- The value of item.tags.get for the state tag, as a Python value. -/
def tagsGetPy (tags : List (String × String)) (k : String) : PyObj :=
  match SPA.assocGet tags k with
  | some v => .pyStr v
  | none => .pyNone

/-- The body of the scanner loop for one account: skip when inactive, skip
when the guard `item.tags.get('account:state') != State.RELEASED` holds,
otherwise call `Account.move(account, State.EXPIRED)`. Returns the move
calls issued for this account. -/
def scan_account (item : AccountView) : List (String × State) :=
  if item.is_active = false then []
  else if PyObj.eq (tagsGetPy item.tags "account:state") (.pyState .RELEASED) = false
  then []
  else [(item.id, State.EXPIRED)]

/-- Embeds `handle_event`: iterate the units, then the accounts of each unit,
collecting every `Account.move(..., State.EXPIRED)` call issued. -/
def handle_event (units : List (List AccountView)) : List (String × State) :=
  (units.map (fun accounts => (accounts.map scan_account).flatten)).flatten

end SPA.Scanner

namespace SPA.Reports

/-! Embedding of `build_reports` from src/lambdas/on_record_handler.py. -/

/-- The stored payload of one metering record, with the fields `build_reports`
reads: `cost-center`, `account`, `stamp`, `transaction`, `identifier`,
`duration`. -/
structure RecordValue where
  cost_center : String
  account : String
  stamp : String
  transaction : String
  identifier : String
  duration : String
deriving DecidableEq, Repr

/-- A CSV buffer: the list of written rows, each row a list of cells in
field order. -/
abbrev Buf : Type := List (List String)

/-- The header row written by `get_reporter` via `writeheader`, in the fixed
`fieldnames` order. -/
def headerRow : List String :=
  ["Cost Center", "Transaction", "Stamp", "Account", "Identifier", "Duration"]

/-- One data row as `DictWriter.writerow` lays it out: the dict built in
`build_reports`, serialized in `fieldnames` order. -/
def csvRow (v : RecordValue) : List String :=
  [v.cost_center, v.transaction, v.stamp, v.account, v.identifier, v.duration]

/-- One iteration of the `build_reports` loop: fetch the cost center's
reporter (a fresh one with only the header when absent), append the record's
row, store it back under the cost center. -/
def reportStep (reports : List (String × Buf)) (item : RecordValue) :
    List (String × Buf) :=
  let label := item.cost_center
  let buf := (SPA.assocGet reports label).getD [headerRow]
  SPA.assocSet reports label (buf ++ [csvRow item])

/-- Embeds `build_reports`: single pass over the records, grouping rows by the
`cost-center` field into one CSV buffer per cost center. -/
def build_reports (records : List RecordValue) : List (String × Buf) :=
  records.foldl reportStep []

end SPA.Reports

namespace SPA

/-! Specification-side helper definitions used in theorem statements. -/

/-- Membership test on a list of strings. -/
def hasStr : List String → String → Bool
| [], _ => false
| x :: xs, k => if x = k then true else hasStr xs k

/-- The distinct elements of a list in first-seen order — the key order a
Python dict ends up with after inserting the list left to right. -/
def firstSeen (l : List String) : List String :=
  l.foldl (fun acc c => if hasStr acc c then acc else acc ++ [c]) []

/-- Value of the last entry carrying the key (last-write-wins lookup). -/
def lookupLast : List (String × String) → String → Option String
| [], _ => none
| p :: ps, k =>
  match lookupLast ps k with
  | some v => some v
  | none => if p.1 = k then some p.2 else none

end SPA

namespace SPA.Scanner

/-- The concrete scan population of the spec's scenario: three accounts in one
organizational unit, exactly one of which is both active and tagged
`account:state = released`. -/
def scenarioAccounts : List AccountView :=
  [⟨"111111111111", true, [("account:owner", "a@b.com"), ("account:state", "released")]⟩,
   ⟨"222222222222", false, [("account:owner", "b@b.com"), ("account:state", "released")]⟩,
   ⟨"333333333333", true, [("account:owner", "c@b.com"), ("account:state", "vanilla")]⟩]

end SPA.Scanner

namespace SPA

/-! Association-list lemmas shared by the theorems below. -/

theorem hasKey_false_get {α : Type} (m : List (String × α)) (k : String)
    (h : hasKey m k = false) : assocGet m k = none := by
  induction m with
  | nil => rfl
  | cons p ps ih =>
    by_cases hp : p.1 = k
    · simp [hasKey, hp] at h
    · simp [hasKey, hp] at h
      simp [assocGet, hp, ih h]

theorem assocGet_append {α : Type} (m1 m2 : List (String × α)) (k : String) :
    assocGet (m1 ++ m2) k =
      match assocGet m1 k with
      | some v => some v
      | none => assocGet m2 k := by
  induction m1 with
  | nil => simp [assocGet]
  | cons p ps ih =>
    by_cases hp : p.1 = k
    · simp [assocGet, hp]
    · simp [assocGet, hp, ih]

theorem assocGet_map_update_self {α : Type} (m : List (String × α)) (k : String)
    (v : α) (hm : hasKey m k = true) :
    assocGet (m.map (fun p => if p.1 = k then (k, v) else p)) k = some v := by
  induction m with
  | nil => simp [hasKey] at hm
  | cons p ps ih =>
    by_cases hp : p.1 = k
    · simp [assocGet, hp]
    · simp [hasKey, hp] at hm
      simp [assocGet, hp, ih hm]

theorem assocGet_map_update_other {α : Type} (m : List (String × α))
    (k k' : String) (v : α) (hne : k' ≠ k) :
    assocGet (m.map (fun p => if p.1 = k then (k, v) else p)) k' = assocGet m k' := by
  induction m with
  | nil => rfl
  | cons p ps ih =>
    by_cases hp : p.1 = k
    · have hp' : ¬p.1 = k' := by rw [hp]; exact fun h => hne h.symm
      simp [assocGet, hp, hp', Ne.symm hne, ih]
    · simp only [List.map_cons, if_neg hp]
      by_cases hq : p.1 = k'
      · simp [assocGet, hq]
      · simp [assocGet, hq, ih]

theorem assocGet_set_self {α : Type} (m : List (String × α)) (k : String) (v : α) :
    assocGet (assocSet m k v) k = some v := by
  unfold assocSet
  by_cases hm : hasKey m k
  · simp only [hm, if_true]
    exact assocGet_map_update_self m k v hm
  · simp only [hm, if_false, Bool.false_eq_true]
    rw [assocGet_append]
    rw [hasKey_false_get m k (by simpa using hm)]
    simp [assocGet]

theorem assocGet_set_other {α : Type} (m : List (String × α)) (k k' : String)
    (v : α) (hne : k' ≠ k) : assocGet (assocSet m k v) k' = assocGet m k' := by
  unfold assocSet
  by_cases hm : hasKey m k
  · simp only [hm, if_true]
    exact assocGet_map_update_other m k k' v hne
  · simp only [hm, if_false, Bool.false_eq_true]
    rw [assocGet_append]
    cases hg : assocGet m k' with
    | some v' => simp
    | none => simp [assocGet, Ne.symm hne]

theorem assocSet_keys {α : Type} (m : List (String × α)) (k : String) (v : α) :
    (assocSet m k v).map Prod.fst =
      if hasKey m k then m.map Prod.fst else m.map Prod.fst ++ [k] := by
  unfold assocSet
  by_cases hm : hasKey m k
  · simp only [hm, if_true]
    rw [List.map_map]
    apply List.map_congr_left
    intro p _
    by_cases hp : p.1 = k
    · simp [Function.comp, hp]
    · simp [Function.comp, hp]
  · simp [hm]

theorem hasKey_eq_hasStr {α : Type} (m : List (String × α)) (k : String) :
    hasKey m k = hasStr (m.map Prod.fst) k := by
  induction m with
  | nil => rfl
  | cons p ps ih =>
    by_cases hp : p.1 = k
    · simp [hasKey, hasStr, hp]
    · simp [hasKey, hasStr, hp, ih]

theorem foldl_assocSet_get (items : List (String × String)) :
    ∀ (init : List (String × String)) (k : String),
      assocGet (items.foldl (fun m p => assocSet m p.1 p.2) init) k =
        match lookupLast items k with
        | some v => some v
        | none => assocGet init k := by
  induction items with
  | nil => intro init k; rfl
  | cons p ps ih =>
    intro init k
    rw [List.foldl_cons, ih]
    cases hps : lookupLast ps k with
    | some v => simp [lookupLast, hps]
    | none =>
      by_cases hp : p.1 = k
      · subst hp
        simp [lookupLast, hps, assocGet_set_self]
      · simp [lookupLast, hps, hp, assocGet_set_other init p.1 k p.2 (fun h => hp h.symm)]

theorem foldl_assocSet_keys (items : List (String × String)) :
    ∀ init : List (String × String),
      ((items.foldl (fun m p => assocSet m p.1 p.2) init).map Prod.fst) =
        items.foldl (fun acc p => if hasStr acc p.1 then acc else acc ++ [p.1])
          (init.map Prod.fst) := by
  induction items with
  | nil => intro init; rfl
  | cons p ps ih =>
    intro init
    rw [List.foldl_cons, List.foldl_cons, ih]
    rw [assocSet_keys, hasKey_eq_hasStr]

end SPA

namespace SPA.Meter

theorem onboardingKey_ne_maintenanceKey (a : String) :
    onboardingKey a ≠ maintenanceKey a := by
  intro h
  have hd : (onboardingKey a).data.length = (maintenanceKey a).data.length := by
    rw [h]
  rw [onboardingKey, maintenanceKey, String.data_append, String.data_append,
    List.length_append, List.length_append] at hd
  have e1 : "OnBoarding ".data.length = 11 := rfl
  have e2 : "Maintenance ".data.length = 12 := rfl
  omega

end SPA.Meter

namespace SPA.Account

/-- C3: `validate_tags` succeeds exactly when the listed tag mapping carries a
key `account:owner` whose value matches the owner-email pattern and a key
`account:state` whose value is one of vanilla, assigned, released, expired;
in every other case it returns the `ValueError` message of the first failed
check. -/
theorem validate_tags_ok_iff (account : String) (tags : List (String × String)) :
    validate_tags account tags = .ok () ↔
      ((∃ o, SPA.assocGet tags "account:owner" = some o ∧ validate_owner o = true)
       ∧ (∃ s, SPA.assocGet tags "account:state" = some s ∧ validate_state s = true)) := by
  unfold validate_tags
  cases ho : SPA.assocGet tags "account:owner" with
  | none => simp [ho]
  | some o =>
    cases hvo : validate_owner o with
    | false =>
      simp only [hvo, if_true, if_false]
      simp [ho, hvo]
    | true =>
      cases hs : SPA.assocGet tags "account:state" with
      | none => simp [ho, hs, hvo]
      | some s =>
        cases hvs : validate_state s with
        | false => simp [ho, hs, hvo, hvs]
        | true => simp [ho, hs, hvo, hvs]

/-- C4: `move` on any argument that is not a member of the `State` enumeration
returns the `ValueError` and issues zero tag mutations, whatever `DRY_RUN`
holds. -/
theorem move_invalid_state (dryRun : Option String) (account v : String) :
    move dryRun account (.raw v) = (.error ("Unexpected state type " ++ v), []) :=
  rfl

/-- C5: for a genuine `State` member, `move` issues exactly one tag mutation
(setting `account:state` to the member's value) when `DRY_RUN` equals
"FALSE", and zero mutations under any other value of `DRY_RUN`, unset
included. -/
theorem move_dry_run_frame (account : String) (s : State) :
    (move (some "FALSE") account (.member s)
        = (.ok (), [⟨account, "account:state", s.value⟩]))
    ∧ ∀ dryRun : Option String, dryRun ≠ some "FALSE" →
        move dryRun account (.member s) = (.ok (), []) := by
  refine ⟨rfl, ?_⟩
  intro dryRun hd
  unfold move
  simp [hd]

/-- Witness for C5 at a concrete account, state and toggle. -/
theorem move_dry_run_frame_witness :
    (move (some "FALSE") "123456789012" (.member .VANILLA)
        = (.ok (), [⟨"123456789012", "account:state", "vanilla"⟩]))
    ∧ move (some "TRUE") "123456789012" (.member .VANILLA) = (.ok (), []) :=
  ⟨(move_dry_run_frame "123456789012" .VANILLA).1,
   (move_dry_run_frame "123456789012" .VANILLA).2 (some "TRUE") (by decide)⟩

/-- C10: the `isinstance` check precedes the dry-run branch, so a non-member
target raises the `ValueError` even while the dry-run toggle is active, and
still issues zero tag mutations. -/
theorem move_invalid_state_under_dry_run (dryRun : Option String)
    (account v : String) (h : dryRun ≠ some "FALSE") :
    move dryRun account (.raw v) = (.error ("Unexpected state type " ++ v), []) :=
  rfl

/-- Witness for C10 with the dry-run toggle active. -/
theorem move_invalid_state_under_dry_run_witness :
    move (some "TRUE") "123456789012" (.raw "*something*")
      = (.error ("Unexpected state type " ++ "*something*"), []) :=
  move_invalid_state_under_dry_run (some "TRUE") "123456789012" "*something*"
    (by decide)

end SPA.Account

namespace SPA.Meter

/-- C6: one `ReleasedAccount` delivery emits, for each transaction kind whose
record is present, exactly one completion event with the kind's label and a
payload carrying the stored begin and identifier together with the closing
time and `duration = end - begin`; an absent kind emits nothing and raises no
error. -/
theorem released_event_emissions (nowM nowO : Int) (store : Store)
    (account : String) :
    (handle_released_event nowM nowO store account).2 =
      (match store.retrieve (maintenanceKey account) with
       | some t =>
         [⟨"SuccessfulMaintenanceEvent", ⟨t.begin, t.identifier, nowM, nowM - t.begin⟩⟩]
       | none => [])
      ++ (match store.retrieve (onboardingKey account) with
       | some t =>
         [⟨"SuccessfulOnBoardingEvent", ⟨t.begin, t.identifier, nowO, nowO - t.begin⟩⟩]
       | none => [])
    ∧ ∀ e ∈ (handle_released_event nowM nowO store account).2,
        e.payload.duration = e.payload.end_ - e.payload.begin := by
  have hne := onboardingKey_ne_maintenanceKey account
  cases hm : store (maintenanceKey account) with
  | none =>
    cases hob : store (onboardingKey account) with
    | none =>
      simp [handle_released_event, update_maintenance_transaction,
        update_onboarding_transaction, Store.retrieve, Store.assign, hm, hob]
    | some t =>
      simp [handle_released_event, update_maintenance_transaction,
        update_onboarding_transaction, Store.retrieve, Store.assign, hm, hob]
  | some t =>
    cases hob : store (onboardingKey account) with
    | none =>
      simp [handle_released_event, update_maintenance_transaction,
        update_onboarding_transaction, Store.retrieve, Store.assign, hm, hob, hne]
    | some t' =>
      simp [handle_released_event, update_maintenance_transaction,
        update_onboarding_transaction, Store.retrieve, Store.assign, hm, hob, hne]

/-- C1: delivering the same `ReleasedAccount` event twice in succession emits
exactly one completion event per transaction kind present in the initial
ledger; the second delivery finds both records already consumed and emits
nothing. -/
theorem close_idempotent (nM1 nO1 nM2 nO2 : Int) (store : Store)
    (account : String) :
    (handle_released_event nM2 nO2
        (handle_released_event nM1 nO1 store account).1 account).2 = []
    ∧ ((handle_released_event nM1 nO1 store account).2
        ++ (handle_released_event nM2 nO2
            (handle_released_event nM1 nO1 store account).1 account).2).countP
          (fun e => e.label = "SuccessfulMaintenanceEvent")
        = (if (store.retrieve (maintenanceKey account)).isSome then 1 else 0)
    ∧ ((handle_released_event nM1 nO1 store account).2
        ++ (handle_released_event nM2 nO2
            (handle_released_event nM1 nO1 store account).1 account).2).countP
          (fun e => e.label = "SuccessfulOnBoardingEvent")
        = (if (store.retrieve (onboardingKey account)).isSome then 1 else 0)
    ∧ (handle_released_event nM1 nO1 store account).1.retrieve
        (maintenanceKey account) = none
    ∧ (handle_released_event nM1 nO1 store account).1.retrieve
        (onboardingKey account) = none := by
  have hne := onboardingKey_ne_maintenanceKey account
  cases hm : store (maintenanceKey account) with
  | none =>
    cases hob : store (onboardingKey account) with
    | none =>
      simp [handle_released_event, update_maintenance_transaction,
        update_onboarding_transaction, Store.retrieve, Store.assign, hm, hob,
        hne, List.countP_cons, List.countP_nil]
    | some t =>
      simp [handle_released_event, update_maintenance_transaction,
        update_onboarding_transaction, Store.retrieve, Store.assign, hm, hob,
        hne, List.countP_cons, List.countP_nil]
  | some t =>
    cases hob : store (onboardingKey account) with
    | none =>
      simp [handle_released_event, update_maintenance_transaction,
        update_onboarding_transaction, Store.retrieve, Store.assign, hm, hob,
        hne, List.countP_cons, List.countP_nil]
    | some t' =>
      simp [handle_released_event, update_maintenance_transaction,
        update_onboarding_transaction, Store.retrieve, Store.assign, hm, hob,
        hne, List.countP_cons, List.countP_nil]

/-- C7: a starting event writes a fresh transaction under its kind's key for
the account, overwriting whatever the ledger held there, so redelivering the
same starting event resets the begin timestamp and identifier to the second
delivery's values. -/
theorem start_overwrites (store : Store) (account : String) (n1 n2 : Int)
    (i1 i2 : String) :
    ((handle_created_event n1 i1 store account).retrieve (onboardingKey account)
        = some ⟨n1, i1⟩)
    ∧ ((handle_created_event n2 i2 (handle_created_event n1 i1 store account)
        account).retrieve (onboardingKey account) = some ⟨n2, i2⟩)
    ∧ ((handle_expired_event n1 i1 store account).retrieve (maintenanceKey account)
        = some ⟨n1, i1⟩)
    ∧ ((handle_expired_event n2 i2 (handle_expired_event n1 i1 store account)
        account).retrieve (maintenanceKey account) = some ⟨n2, i2⟩) := by
  refine ⟨?_, ?_, ?_, ?_⟩ <;>
    simp [handle_created_event, handle_expired_event, Store.retrieve, Store.assign]

end SPA.Meter

namespace SPA.Scanner

theorem scan_account_nil (item : AccountView) : scan_account item = [] := by
  unfold scan_account
  cases ha : item.is_active with
  | false => simp
  | true =>
    have hguard :
        PyObj.eq (tagsGetPy item.tags "account:state") (.pyState .RELEASED) = false := by
      unfold tagsGetPy
      cases SPA.assocGet item.tags "account:state" <;> rfl
    simp [ha, hguard]

/-- C2: on the scanner as coded, the guard compares the string value of tag
`account:state` with the enumeration member `State.RELEASED` itself, a
cross-type Python comparison that is always unequal, so every account is
skipped and no `move(..., EXPIRED)` call is ever issued — in particular the
scenario population of 3 accounts, exactly one of which is active and
released, produces zero moves instead of the one move the specification
states. -/
theorem scanner_issues_no_moves :
    (∀ units : List (List AccountView), handle_event units = [])
    ∧ handle_event [scenarioAccounts] = [] := by
  have hall : ∀ units : List (List AccountView), handle_event units = [] := by
    intro units
    unfold handle_event
    induction units with
    | nil => rfl
    | cons u us ih =>
      rw [List.map_cons, List.flatten_cons, ih, List.append_nil]
      induction u with
      | nil => rfl
      | cons a as iha =>
        rw [List.map_cons, List.flatten_cons, scan_account_nil, List.nil_append, iha]
  exact ⟨hall, hall [scenarioAccounts]⟩

end SPA.Scanner

namespace SPA.Reports

theorem reports_fold_get (records : List RecordValue) :
    ∀ (reports : List (String × Buf)) (label : String),
      SPA.assocGet (records.foldl reportStep reports) label =
        match SPA.assocGet reports label with
        | some buf =>
          some (buf ++ (records.filter (fun r => r.cost_center = label)).map csvRow)
        | none =>
          if (records.filter (fun r => r.cost_center = label)).isEmpty then none
          else some ([headerRow]
            ++ (records.filter (fun r => r.cost_center = label)).map csvRow) := by
  induction records with
  | nil =>
    intro reports label
    cases hg : SPA.assocGet reports label <;> simp [hg]
  | cons r rs ih =>
    intro reports label
    rw [List.foldl_cons, ih]
    by_cases hL : r.cost_center = label
    · subst hL
      have hset : SPA.assocGet (reportStep reports r) r.cost_center =
          some (((SPA.assocGet reports r.cost_center).getD [headerRow])
            ++ [csvRow r]) := by
        unfold reportStep
        exact SPA.assocGet_set_self reports r.cost_center _
      rw [hset]
      cases hg : SPA.assocGet reports r.cost_center with
      | some buf => simp [hg, List.filter_cons, List.append_assoc]
      | none => simp [hg, List.filter_cons, List.append_assoc]
    · have hset : SPA.assocGet (reportStep reports r) label
          = SPA.assocGet reports label := by
        unfold reportStep
        exact SPA.assocGet_set_other reports r.cost_center label _
          (fun h => hL h.symm)
      rw [hset]
      simp [List.filter_cons, hL]

theorem reports_fold_keys (records : List RecordValue) :
    ∀ reports : List (String × Buf),
      ((records.foldl reportStep reports).map Prod.fst) =
        records.foldl
          (fun acc r => if SPA.hasStr acc r.cost_center then acc
            else acc ++ [r.cost_center])
          (reports.map Prod.fst) := by
  induction records with
  | nil => intro reports; rfl
  | cons r rs ih =>
    intro reports
    rw [List.foldl_cons, List.foldl_cons, ih]
    congr 1
    unfold reportStep
    rw [SPA.assocSet_keys, SPA.hasKey_eq_hasStr]

/-- C8: `build_reports` groups the records by their `cost-center` field into
one CSV buffer per distinct cost center (keys in first-seen order, so records
spanning 3 cost centers yield exactly 3 buffers); each buffer starts with the
single header row in the fixed column order and then holds exactly one data
row per input record of that cost center, in input order, and no row of any
other cost center. -/
theorem build_reports_grouping (records : List RecordValue) :
    ((build_reports records).map Prod.fst
        = SPA.firstSeen (records.map RecordValue.cost_center))
    ∧ ∀ label : String,
        SPA.assocGet (build_reports records) label =
          if (records.filter (fun r => r.cost_center = label)).isEmpty then none
          else some (headerRow
            :: (records.filter (fun r => r.cost_center = label)).map csvRow) := by
  constructor
  · unfold build_reports SPA.firstSeen
    rw [reports_fold_keys records [], List.foldl_map]
    rfl
  · intro label
    unfold build_reports
    rw [reports_fold_get records [] label]
    simp [SPA.assocGet]

end SPA.Reports

namespace SPA.Account

/-- C9: `list_tags` merges all paginated chunks into one mapping with
last-write-wins on key collisions and keys kept in first-seen order; on the
two chunks of the spec's scenario it returns exactly the 3 entries, first
chunk's entries first. -/
theorem list_tags_merge :
    (∀ (chunks : List (List (String × String))) (k : String),
        SPA.assocGet (list_tags chunks) k = SPA.lookupLast chunks.flatten k)
    ∧ (∀ chunks : List (List (String × String)),
        (list_tags chunks).map Prod.fst
          = SPA.firstSeen (chunks.flatten.map Prod.fst))
    ∧ list_tags [[("account:owner", "a@b.com"), ("account:state", "vanilla")],
        [("another_tag", "another_value")]]
      = [("account:owner", "a@b.com"), ("account:state", "vanilla"),
         ("another_tag", "another_value")] := by
  refine ⟨?_, ?_, by decide⟩
  · intro chunks k
    unfold list_tags
    rw [SPA.foldl_assocSet_get]
    cases SPA.lookupLast chunks.flatten k <;> rfl
  · intro chunks
    unfold list_tags SPA.firstSeen
    rw [SPA.foldl_assocSet_keys, List.foldl_map]
    rfl

end SPA.Account
